import Mathlib

/-!
Verification of the Todo_App repository: a shallow embedding of the
frontend task-management handlers (`app/page.tsx`, `lib/api.ts`,
`components/ChatInterface.tsx`) and of the conversational task-command
core described by the project's specifications (intent classification,
reference resolution, and the three task tools), together with theorems
settling the specification's claims about them.
-/

namespace TodoApp

/-- A task record as defined in `types.ts` (`interface Task`).  The two
timestamp strings are irrelevant to every property proved here and are
omitted from the embedding. -/
structure Task where
  id : Nat
  title : String
  description : Option String
  status : String
  user_id : String
  deriving Repr, DecidableEq

/-- The `TaskCreate` payload of `types.ts`: a title and an optional
description, as produced by the add-task form state in `app/page.tsx`. -/
structure TaskCreate where
  title : String
  description : String
  deriving Repr, DecidableEq

/-- JavaScript `String.prototype.trim`: strip leading and trailing
whitespace.  Modelled over the string's character list so that the kernel
can evaluate it on concrete inputs. -/
def jsTrim (s : String) : String :=
  ⟨((s.data.dropWhile Char.isWhitespace).reverse.dropWhile Char.isWhitespace).reverse⟩

/-- Outcome of one submission of the add-task form: either a user-visible
validation error is set, or `createTask` is invoked with the form data. -/
inductive SubmitOutcome where
  | validationError (msg : String)
  | toolCall (payload : TaskCreate)
  deriving Repr, DecidableEq

/-- The `handleSubmit` handler of `app/page.tsx`: if the title is empty after trimming
(`!newTask.title.trim()` — the empty string is falsy in JavaScript) the
handler sets the error `"Title is required"` and returns without calling
`createTask`; otherwise it calls `createTask(newTask)`. -/
def handleSubmit (newTask : TaskCreate) : SubmitOutcome :=
  if jsTrim newTask.title = "" then
    .validationError "Title is required"
  else
    .toolCall newTask

/-- C1: an add-task submission whose title trims to empty fails with the
validation error and issues no tool call; conversely every tool call issued
carries a title that is non-empty after trimming. -/
theorem handleSubmit_title_validation (newTask : TaskCreate) :
    (jsTrim newTask.title = "" →
      handleSubmit newTask = .validationError "Title is required") ∧
    (∀ p : TaskCreate, handleSubmit newTask = .toolCall p → jsTrim p.title ≠ "") := by
  constructor
  · intro h
    simp [handleSubmit, h]
  · intro p hp
    unfold handleSubmit at hp
    by_cases h : jsTrim newTask.title = ""
    · simp [h] at hp
    · simp [h] at hp
      cases hp
      exact h

/-- Witness for C1: the blank title `"   "` is rejected with the validation
error, and the title `"buy milk"` reaches the tool with a non-empty trim. -/
theorem handleSubmit_title_validation_witness :
    handleSubmit ⟨"   ", ""⟩ = .validationError "Title is required" ∧
    jsTrim (⟨"buy milk", ""⟩ : TaskCreate).title ≠ "" := by
  refine ⟨(handleSubmit_title_validation ⟨"   ", ""⟩).1 (by decide), ?_⟩
  exact (handleSubmit_title_validation ⟨"buy milk", ""⟩).2 ⟨"buy milk", ""⟩ (by decide)

/-! ## Chat interface (`components/ChatInterface.tsx`) -/

/-- A chat message as held in the `messages` state of `ChatInterface`:
content and role (`"user"` or `"assistant"`); the id and timestamp fields
play no role in any property proved here. -/
structure Message where
  content : String
  role : String
  deriving Repr, DecidableEq

/-- The component state of `ChatInterface` relevant to a turn: the input
box, the transcript, and the loading flag. -/
structure ChatState where
  inputMessage : String
  messages : List Message
  isLoading : Bool
  deriving Repr, DecidableEq

/-- Result of the `sendMessage` API call as observed by the chat handler:
either a response string or a thrown error. -/
inductive ApiResult where
  | ok (response : String)
  | err
  deriving Repr, DecidableEq

/-- The error text appended by `ChatInterface.handleSubmit`'s catch block. -/
def chatErrorText : String :=
  "Sorry, there was an error processing your request. Please try again."

/-- The `handleSubmit` handler of `components/ChatInterface.tsx`, as a function of the
pre-turn state and of the API outcome.  The guard
`if (!inputMessage.trim() || isLoading) return;` leaves the state
untouched; otherwise the user message is appended, the input cleared, and
exactly one assistant message (the response on success, `chatErrorText` on
failure) is appended; `isLoading` returns to `false` in the finally block. -/
def chatHandleSubmit (st : ChatState) (api : ApiResult) : ChatState :=
  if jsTrim st.inputMessage = "" ∨ st.isLoading then st
  else
    let afterUser := st.messages ++ [⟨st.inputMessage, "user"⟩]
    match api with
    | .ok r =>
        { inputMessage := "", messages := afterUser ++ [⟨r, "assistant"⟩],
          isLoading := false }
    | .err =>
        { inputMessage := "", messages := afterUser ++ [⟨chatErrorText, "assistant"⟩],
          isLoading := false }

/-- C3: a submitted turn that passes the guard ends with exactly one new
assistant response appended, on API success and on API failure alike —
never zero and never more than one. -/
theorem chat_turn_exactly_one_response (st : ChatState) (api : ApiResult)
    (hne : jsTrim st.inputMessage ≠ "") (hld : st.isLoading = false) :
    ((chatHandleSubmit st api).messages.filter
        (fun m => m.role = "assistant")).length =
      (st.messages.filter (fun m => m.role = "assistant")).length + 1 := by
  unfold chatHandleSubmit
  rw [if_neg (by simp [hne, hld])]
  cases api <;> simp

/-- Witness for C3: from an empty transcript, submitting `"show my tasks"`
with a successful API reply leaves exactly one assistant message. -/
theorem chat_turn_exactly_one_response_witness :
    ((chatHandleSubmit ⟨"show my tasks", [], false⟩ (.ok "You have 0 tasks")).messages.filter
        (fun m => m.role = "assistant")).length =
      (([] : List Message).filter (fun m => m.role = "assistant")).length + 1 :=
  chat_turn_exactly_one_response ⟨"show my tasks", [], false⟩ (.ok "You have 0 tasks")
    (by decide) rfl

/-- C4 counterexample: with a tool call in flight (`isLoading = true`), a
submitted utterance is discarded — the handler returns with the state
unchanged, so nothing is queued for later processing. -/
theorem chat_inflight_submission_discarded_cex :
    chatHandleSubmit ⟨"add a task to buy milk", [], true⟩ (.ok "done") =
      ⟨"add a task to buy milk", [], true⟩ := by
  unfold chatHandleSubmit
  rw [if_pos (Or.inr rfl)]

/-- C4 (amended): turns are processed one at a time, and an utterance
submitted while a tool call is in flight is ignored: the handler returns
immediately and the component state (transcript, input, loading flag) is
exactly what it was, so the utterance is neither processed nor queued. -/
theorem chat_inflight_submission_ignored (st : ChatState) (api : ApiResult)
    (h : st.isLoading = true) :
    chatHandleSubmit st api = st := by
  unfold chatHandleSubmit
  rw [if_pos (Or.inr h)]

/-- Witness for the amended C4: a concrete in-flight state is returned
unchanged. -/
theorem chat_inflight_submission_ignored_witness :
    chatHandleSubmit ⟨"list", [⟨"hi", "user"⟩], true⟩ .err =
      ⟨"list", [⟨"hi", "user"⟩], true⟩ :=
  chat_inflight_submission_ignored ⟨"list", [⟨"hi", "user"⟩], true⟩ .err rfl

/-- C10: the transcript is append-only — across any turn (guard-rejected or
processed, API success or failure) the previous message list is a prefix of
the new one, so no previously added message is ever removed or altered, and
the processed turn's two updates each append a single message at the end. -/
theorem chat_transcript_append_only (st : ChatState) (api : ApiResult) :
    st.messages <+: (chatHandleSubmit st api).messages ∧
    ((chatHandleSubmit st api).messages = st.messages ∨
      ∃ r : String,
        (chatHandleSubmit st api).messages =
          (st.messages ++ [⟨st.inputMessage, "user"⟩]) ++ [⟨r, "assistant"⟩]) := by
  unfold chatHandleSubmit
  by_cases hg : jsTrim st.inputMessage = "" ∨ st.isLoading
  · rw [if_pos hg]
    exact ⟨List.prefix_refl _, Or.inl rfl⟩
  · rw [if_neg hg]
    cases api with
    | ok r =>
        refine ⟨⟨[⟨st.inputMessage, "user"⟩, ⟨r, "assistant"⟩], ?_⟩, Or.inr ⟨r, rfl⟩⟩
        simp
    | err =>
        refine ⟨⟨[⟨st.inputMessage, "user"⟩, ⟨chatErrorText, "assistant"⟩], ?_⟩,
          Or.inr ⟨chatErrorText, rfl⟩⟩
        simp

/-! ## API client (`lib/api.ts`) -/

/-- The request body of `sendMessage` in `lib/api.ts`: the message together
with the forwarded user id, where the JavaScript expression
`userId || 'mock-user-uuid'` substitutes the literal default whenever the
argument is absent or falsy (the empty string). -/
def sendMessageBody (message : String) (userId : Option String) :
    String × String :=
  (message,
    match userId with
    | some u => if u = "" then "mock-user-uuid" else u
    | none => "mock-user-uuid")

/-- C5 counterexample: a session whose host-attached user id is the empty
string has its chat request forwarded under the id `"mock-user-uuid"` — a
different id, and exactly the id of a session the host named
`"mock-user-uuid"`, so the two sessions act on the same task store. -/
theorem sendMessage_userid_substitution_cex :
    (sendMessageBody "show my tasks" (some "")).2 ≠ "" ∧
    (sendMessageBody "show my tasks" (some "")).2 =
      (sendMessageBody "show my tasks" (some "mock-user-uuid")).2 := by
  constructor
  · decide
  · rfl

/-- C5 (amended): the user id forwarded with a chat request equals the
host-attached id whenever that id is truthy (a non-empty string); when the
host attaches no id or the empty string, the literal `"mock-user-uuid"` is
forwarded instead. -/
theorem sendMessage_userid_forwarding (message : String) (u : String)
    (h : u ≠ "") :
    (sendMessageBody message (some u)).2 = u := by
  unfold sendMessageBody
  simp [h]

/-- Witness for the amended C5: a concrete non-empty host id is forwarded
verbatim. -/
theorem sendMessage_userid_forwarding_witness :
    (sendMessageBody "hi" (some "user-42")).2 = "user-42" :=
  sendMessage_userid_forwarding "hi" "user-42" (by decide)

/-! ## Task-list state updates (`app/page.tsx`) -/

/-- The state update of `handleToggleStatus` in `app/page.tsx` after a
successful `toggleTaskStatus(id)` call:
`prev.map(task => task.id === id ? updatedTask : task)`. -/
def handleToggleStatusUpdate (tasks : List Task) (id : Nat)
    (updatedTask : Task) : List Task :=
  tasks.map (fun task => if task.id = id then updatedTask else task)

/-- C8: toggling replaces at most the single entry whose id matches — the
length is preserved, every position holding a task with a different id is
unchanged, and (when ids are distinct, as the store guarantees) any two
positions that changed coincide. -/
theorem handleToggleStatus_frame (tasks : List Task) (id : Nat)
    (updatedTask : Task) :
    (handleToggleStatusUpdate tasks id updatedTask).length = tasks.length ∧
    (∀ i t, tasks.get? i = some t → t.id ≠ id →
      (handleToggleStatusUpdate tasks id updatedTask).get? i = some t) ∧
    ((tasks.map Task.id).Nodup →
      ∀ i j ti tj, tasks.get? i = some ti → tasks.get? j = some tj →
        (handleToggleStatusUpdate tasks id updatedTask).get? i ≠ some ti →
        (handleToggleStatusUpdate tasks id updatedTask).get? j ≠ some tj →
        i = j) := by
  refine ⟨List.length_map _ _, ?_, ?_⟩
  · intro i t hget hid
    rw [handleToggleStatusUpdate, List.get?_map, hget]
    simp [hid]
  · intro hnd i j ti tj hi hj hci hcj
    have hidi : ti.id = id := by
      by_contra hne
      apply hci
      rw [handleToggleStatusUpdate, List.get?_map, hi]
      simp [hne]
    have hidj : tj.id = id := by
      by_contra hne
      apply hcj
      rw [handleToggleStatusUpdate, List.get?_map, hj]
      simp [hne]
    have hilt : i < (tasks.map Task.id).length := by
      rw [List.length_map]
      exact (List.get?_eq_some.mp hi).1
    have hmi : (tasks.map Task.id).get? i = some id := by
      rw [List.get?_map, hi]
      simp [hidi]
    have hmj : (tasks.map Task.id).get? j = some id := by
      rw [List.get?_map, hj]
      simp [hidj]
    exact List.get?_inj hilt hnd (hmi.trans hmj.symm)

/-- Witness for C8: in a two-task list, toggling id 1 leaves the task with
id 2 in place at its position. -/
theorem handleToggleStatus_frame_witness :
    (handleToggleStatusUpdate
        [⟨1, "a", none, "incomplete", "u"⟩, ⟨2, "b", none, "incomplete", "u"⟩]
        1 ⟨1, "a", none, "complete", "u"⟩).get? 1 =
      some ⟨2, "b", none, "incomplete", "u"⟩ :=
  (handleToggleStatus_frame
      [⟨1, "a", none, "incomplete", "u"⟩, ⟨2, "b", none, "incomplete", "u"⟩]
      1 ⟨1, "a", none, "complete", "u"⟩).2.1
    1 ⟨2, "b", none, "incomplete", "u"⟩ rfl (by decide)

/-- The state update of `handleDelete` in `app/page.tsx`: on a successful
`deleteTask(id)` the list becomes `prev.filter(task => task.id !== id)`;
when the call throws, only the error banner is set and the list is left
unchanged. -/
def handleDeleteUpdate (tasks : List Task) (id : Nat) (success : Bool) :
    List Task :=
  if success then tasks.filter (fun task => task.id != id) else tasks

/-- C9: a successful delete yields exactly the original list with every
task of the given id removed — the result is a sublist (relative order
preserved), contains no task with that id, retains every task with a
different id, and has the length of the non-matching count; a failed delete
leaves the list unchanged. -/
theorem handleDelete_spec (tasks : List Task) (id : Nat) :
    (handleDeleteUpdate tasks id true).Sublist tasks ∧
    (∀ t ∈ handleDeleteUpdate tasks id true, t.id ≠ id) ∧
    (∀ t ∈ tasks, t.id ≠ id → t ∈ handleDeleteUpdate tasks id true) ∧
    (handleDeleteUpdate tasks id true).length =
      tasks.countP (fun task => task.id != id) ∧
    handleDeleteUpdate tasks id false = tasks := by
  refine ⟨List.filter_sublist _, ?_, ?_, ?_, rfl⟩
  · intro t ht
    have := (List.mem_filter.mp ht).2
    simpa using this
  · intro t ht hid
    exact List.mem_filter.mpr ⟨ht, by simpa using hid⟩
  · exact (List.countP_eq_length_filter _ _).symm

/-- Witness for C9: in a concrete two-task list, a failed delete leaves
both tasks, and after a successful delete of id 1 the task with id 2 is
still present. -/
theorem handleDelete_spec_witness :
    handleDeleteUpdate
        [⟨1, "a", none, "incomplete", "u"⟩, ⟨2, "b", none, "incomplete", "u"⟩]
        1 false =
      [⟨1, "a", none, "incomplete", "u"⟩, ⟨2, "b", none, "incomplete", "u"⟩] ∧
    ⟨2, "b", none, "incomplete", "u"⟩ ∈
      handleDeleteUpdate
        [⟨1, "a", none, "incomplete", "u"⟩, ⟨2, "b", none, "incomplete", "u"⟩]
        1 true := by
  have h := handleDelete_spec
    [⟨1, "a", none, "incomplete", "u"⟩, ⟨2, "b", none, "incomplete", "u"⟩] 1
  exact ⟨h.2.2.2.2, h.2.2.1 ⟨2, "b", none, "incomplete", "u"⟩ (by decide) (by decide)⟩

/-! ## Conversational core

The intent classifier, slot extractor, reference resolver and the three
task tools live in the backend (`backend/mcp_server.py`,
`backend/todo_logic.py`), which is not part of the frontend sources; the
definitions below are modelled from the specification (§4.1–§4.3, §6). -/

/-- Substring test on character lists: `containsSub needle hay` is true
iff `needle` occurs contiguously inside `hay`. -/
def containsSub (needle : List Char) : List Char → Bool
  | [] => needle.isEmpty
  | c :: rest => needle.isPrefixOf (c :: rest) || containsSub needle rest

/-- Modelled from the spec: the Intent data type of §3 — one of AddTask,
ListTasks, CompleteTask, Unclear. -/
inductive Intent where
  | AddTask
  | ListTasks
  | CompleteTask
  | Unclear
  deriving Repr, DecidableEq

/-- Modelled from the spec: a ReferenceExpression (§3) — tagged as one of
ExplicitId, TitleMention, or PositionalMention with its filter scope. -/
inductive ReferenceExpression where
  | ExplicitId (n : Nat)
  | TitleMention (phrase : List Char)
  | PositionalMention (ordinal : Nat) (filterScope : String)
  deriving Repr, DecidableEq

/-- Modelled from the spec: a ResolutionResult (§3) — always one of the
three tagged variants, never a bare nullable value. -/
inductive ResolutionResult where
  | Resolved (taskId : Nat)
  | NotFound
  | Ambiguous (candidateIds : List Nat)
  deriving Repr, DecidableEq

/-- Modelled from the spec: trigger phrases of the CompleteTask rule band
(§4.1: "finished", "done", "mark ... complete"). -/
def completeTriggers : List (List Char) :=
  ["finished".data, "done".data, "mark".data, "complete".data]

/-- Modelled from the spec: trigger phrases of the AddTask rule band
(§4.1: "remind me", "add a task", "need to"). -/
def addTriggers : List (List Char) :=
  ["remind me".data, "add a task".data, "need to".data]

/-- Modelled from the spec: trigger phrases of the ListTasks rule band
(§4.1: "show", "what do I have", and the my-list phrasings). -/
def listTriggers : List (List Char) :=
  ["show".data, "what do i have".data, "my list".data]

/-- Modelled from the spec: `classify(utterance) -> Intent` (§4.1).  Rule
bands are evaluated in fixed priority order — CompleteTask first, then
AddTask, then ListTasks; a band matches when one of its trigger phrases
occurs in the lowercased utterance; if no rule matches, the intent is
Unclear. -/
def classify (u : List Char) : Intent :=
  let l := u.map Char.toLower
  if completeTriggers.any (fun p => containsSub p l) then .CompleteTask
  else if addTriggers.any (fun p => containsSub p l) then .AddTask
  else if listTriggers.any (fun p => containsSub p l) then .ListTasks
  else .Unclear

/-- Value of a digit run (most significant first). -/
def digitsToNat (ds : List Char) : Nat :=
  ds.foldl (fun a c => a * 10 + (c.toNat - 48)) 0

/-- Modelled from the spec: scan for the first explicit `#<digits>` token
of the utterance (§4.2, CompleteTask slot) and return its value. -/
def findExplicitId : List Char → Option Nat
  | [] => none
  | '#' :: rest =>
      let ds := rest.takeWhile Char.isDigit
      if ds.isEmpty then findExplicitId rest else some (digitsToNat ds)
  | _ :: rest => findExplicitId rest

/-- Modelled from the spec: scan for a `task <digits>` token (§4.2,
CompleteTask slot), the second explicit-id form. -/
def findTaskNumber : List Char → Option Nat
  | [] => none
  | c :: rest =>
      if "task ".data.isPrefixOf (c :: rest) then
        let ds := (rest.drop 4).takeWhile Char.isDigit
        if ds.isEmpty then findTaskNumber rest else some (digitsToNat ds)
      else findTaskNumber rest

/-- Modelled from the spec: the text between the first pair of double
quotes, if any (§4.2: a quoted phrase becomes a TitleMention). -/
def quotedPhrase (u : List Char) : Option (List Char) :=
  match u.dropWhile (fun c => c ≠ '"') with
  | [] => none
  | _ :: rest =>
      let body := rest.takeWhile (fun c => c ≠ '"')
      if rest.any (fun c => c = '"') then some body else none

/-- Modelled from the spec: ordinal words of §4.2 mapped to zero-based
positions ("first", "second", "third"). -/
def ordinalIndex (u : List Char) : Option Nat :=
  let l := u.map Char.toLower
  if containsSub "first".data l then some 0
  else if containsSub "second".data l then some 1
  else if containsSub "third".data l then some 2
  else none

/-- Modelled from the spec: the CompleteTask slot extractor (§4.2) —
an explicit `#<digits>` or `task <digits>` token becomes ExplicitId, a
quoted phrase becomes TitleMention, an ordinal word becomes a
PositionalMention scoped to the full list; `none` stands for the
IncompleteSlots failure when no reference can be formed. -/
def extractReference (u : List Char) : Option ReferenceExpression :=
  match findExplicitId u with
  | some n => some (.ExplicitId n)
  | none =>
      match findTaskNumber u with
      | some n => some (.ExplicitId n)
      | none =>
          match quotedPhrase u with
          | some q => some (.TitleMention q)
          | none => (ordinalIndex u).map (fun k => .PositionalMention k "all")

/-- Modelled from the spec: `resolve(expr, snapshot) -> ResolutionResult`
(§4.3) with its precedence: ExplicitId matches snapshot entries by id
(Resolved iff exactly one match, else NotFound); TitleMention tries a
case-insensitive exact title match and falls back to case-insensitive
substring match (one candidate Resolved, zero NotFound, several
Ambiguous); PositionalMention indexes into the snapshot in its given
order, optionally pre-filtered by status, out of range being NotFound. -/
def resolve (expr : ReferenceExpression) (snapshot : List Task) :
    ResolutionResult :=
  match expr with
  | .ExplicitId n =>
      match snapshot.filter (fun t => t.id == n) with
      | [t] => .Resolved t.id
      | _ => .NotFound
  | .TitleMention phrase =>
      let lowered := phrase.map Char.toLower
      let exactMatches := snapshot.filter
        (fun t => t.title.data.map Char.toLower == lowered)
      let cands :=
        if exactMatches.isEmpty then
          snapshot.filter
            (fun t => containsSub lowered (t.title.data.map Char.toLower))
        else exactMatches
      match cands with
      | [] => .NotFound
      | [t] => .Resolved t.id
      | ts => .Ambiguous (ts.map Task.id)
  | .PositionalMention k scope =>
      let inScope :=
        if scope = "all" then snapshot
        else snapshot.filter (fun t => t.status == scope)
      match inScope.get? k with
      | some t => .Resolved t.id
      | none => .NotFound

/-- Modelled from the spec: CompleteTask reference resolution for a turn —
extract the reference expression from the utterance and resolve it against
the fresh snapshot; `none` is the IncompleteSlots failure. -/
def resolveCompleteTask (u : List Char) (snapshot : List Task) :
    Option ResolutionResult :=
  (extractReference u).map (fun expr => resolve expr snapshot)

/-- In a snapshot whose ids are pairwise distinct, filtering for the id of
a member task yields exactly that task. -/
theorem filter_id_singleton (s : List Task) (n : Nat)
    (hnd : (s.map Task.id).Nodup) (t : Task) (ht : t ∈ s) (hid : t.id = n) :
    s.filter (fun x => x.id == n) = [t] := by
  induction s with
  | nil => cases ht
  | cons a rest ih =>
      rw [List.map_cons, List.nodup_cons] at hnd
      rcases List.mem_cons.mp ht with rfl | hmem
      · have hrest : rest.filter (fun x => x.id == n) = [] := by
          apply List.filter_eq_nil.mpr
          intro x hx
          simp only [beq_iff_eq]
          intro hxid
          exact hnd.1 (hid ▸ hxid ▸ List.mem_map_of_mem Task.id hx)
        simp [List.filter_cons, hid, hrest]
      · have hane : (a.id == n) = false := by
          simp only [beq_eq_false_iff_ne, ne_eq]
          intro haid
          exact hnd.1 (haid ▸ hid ▸ List.mem_map_of_mem Task.id hmem)
        rw [List.filter_cons, if_neg (by simp [hane])]
        exact ih hnd.2 hmem

/-- C2: for every utterance whose explicit-id scan finds the token `#<n>`,
if the snapshot (with the store's distinct ids) contains a task with id
`n`, CompleteTask resolution returns `Resolved n` — whatever other text the
utterance contains, the explicit id short-circuits title and positional
matching. -/
theorem explicit_id_resolution (u : List Char) (snapshot : List Task)
    (n : Nat) (hfind : findExplicitId u = some n)
    (hnd : (snapshot.map Task.id).Nodup)
    (t : Task) (ht : t ∈ snapshot) (hid : t.id = n) :
    resolveCompleteTask u snapshot = some (.Resolved n) := by
  have he : extractReference u = some (.ExplicitId n) := by
    unfold extractReference
    rw [hfind]
  have hr : resolve (.ExplicitId n) snapshot = .Resolved n := by
    simp only [resolve]
    rw [filter_id_singleton snapshot n hnd t ht hid]
    exact congrArg ResolutionResult.Resolved hid
  unfold resolveCompleteTask
  rw [he]
  simp [hr]

/-- Witness for C2: in the utterance `"mark #7 as done"` against a
snapshot holding ids 3 and 7, resolution returns `Resolved 7`. -/
theorem explicit_id_resolution_witness :
    resolveCompleteTask "mark #7 as done".data
        [⟨3, "Call mom", none, "incomplete", "u"⟩,
         ⟨7, "Buy milk", none, "incomplete", "u"⟩] =
      some (.Resolved 7) :=
  explicit_id_resolution "mark #7 as done".data
    [⟨3, "Call mom", none, "incomplete", "u"⟩,
     ⟨7, "Buy milk", none, "incomplete", "u"⟩]
    7 (by decide) (by decide)
    ⟨7, "Buy milk", none, "incomplete", "u"⟩ (by decide) rfl

/-- C6: an utterance in which no trigger phrase of any of the three rule
bands occurs is classified Unclear. -/
theorem classify_no_trigger_unclear (u : List Char)
    (h : ∀ p ∈ completeTriggers ++ addTriggers ++ listTriggers,
        containsSub p (u.map Char.toLower) = false) :
    classify u = .Unclear := by
  unfold classify
  have hc : completeTriggers.any
      (fun p => containsSub p (u.map Char.toLower)) = false := by
    apply List.any_eq_false.mpr
    intro p hp
    simp [h p (by simp [hp])]
  have ha : addTriggers.any
      (fun p => containsSub p (u.map Char.toLower)) = false := by
    apply List.any_eq_false.mpr
    intro p hp
    simp [h p (by simp [hp])]
  have hl : listTriggers.any
      (fun p => containsSub p (u.map Char.toLower)) = false := by
    apply List.any_eq_false.mpr
    intro p hp
    simp [h p (by simp [hp])]
  simp only [hc, ha, hl]
  rfl

/-- Witness for C6: `"hello there"` matches no trigger phrase and is
classified Unclear. -/
theorem classify_no_trigger_unclear_witness :
    classify "hello there".data = .Unclear :=
  classify_no_trigger_unclear "hello there".data (by decide)

/-- Result envelope of the `list_tasks` tool (§6): the task array, its
count, a success flag and a message. -/
structure ListTasksResult where
  tasks : List Task
  count : Nat
  success : Bool
  message : String
  deriving Repr, DecidableEq

/-- Modelled from the spec: the `list_tasks(status?)` tool (§6) against the
task store — it returns the tasks matching the status filter ("all" being
no filter) together with their count, and, being a read, returns the store
unchanged. -/
def list_tasks (store : List Task) (status : String) :
    ListTasksResult × List Task :=
  let ts :=
    if status = "all" then store
    else store.filter (fun t => t.status == status)
  (⟨ts, ts.length, true, "Retrieved tasks"⟩, store)

/-- C7: listing is idempotent — issuing `list_tasks` twice in a row with
the same status filter and no intervening mutation returns identical task
arrays and identical counts, the first call having left the store
untouched. -/
theorem list_tasks_idempotent (store : List Task) (status : String) :
    (list_tasks store status).2 = store ∧
    (list_tasks (list_tasks store status).2 status).1.tasks =
      (list_tasks store status).1.tasks ∧
    (list_tasks (list_tasks store status).2 status).1.count =
      (list_tasks store status).1.count :=
  ⟨rfl, rfl, rfl⟩

end TodoApp
